import Mathlib

/-!
# Shallow embedding of the `unhtml` decode engine (`decoder.go`)

This file models the decode engine of the `unhtml` repository in Lean and
proves properties of it.

Modelling conventions:

* The external document query engine (`gopkg.in/xmlpath.v1`) is abstracted as a
  `Doc`: each node handle is a natural-number identifier; `textOf` is the
  node's string rendering (`Node.String()`), `bytesOf` its raw byte content
  (`Node.Bytes()`), `compiles` says whether a path expression compiles
  (`xmlpath.Compile` succeeding), and `queryOf p n` is the ordered list of
  nodes matched by evaluating the compiled path `p` from node `n`.
* Go's reflective values are modelled by the untyped `GoVal` together with a
  `GoTy` describing the static type; the decoder's `switch value.Kind()`
  becomes a match on `GoTy`.  Go distinguishes the kinds `int`/`int64`
  (both 64-bit), so widths are modelled as kinds (`IntW`, `UintW`), each with
  a bit size.  Floating-point targets, custom decode hooks
  (`Unmarshaler`/`encoding.TextUnmarshaler`) and pointer-typed struct fields
  are outside the scope of the properties proved here and are not modelled.
* A Go slice value is `vSlice store len`: `store` is the full backing array
  (so `cap = store.length`) and `len ≤ store.length` is the visible length.
  An array value reuses `vSlice` with its fixed length.
* A Go runtime panic (`reflect` panics on writes to unaddressable values,
  `xmlpath.MustCompile` panicking on a bad path) aborts the decode without
  producing an error value; this is modelled by the `Crash` side of
  `Except Crash _`.
* The mutable error-accumulating `state` struct is threaded explicitly: every
  function takes the current `firstError : Option Err` and returns the
  updated one.
* Machine integers are modelled as `Int`/`Nat` with explicit bounds checks
  (`overflowInt`, `overflowUint`), mirroring `reflect.Value.OverflowInt` and
  `OverflowUint`.
-/

namespace Unhtml

/-- Signed integer kinds (`reflect.Int`, `Int8`, ... `Int64`).  Go's `int` is
its own kind but is 64 bits wide. -/
inductive IntW where
  | iInt
  | i8
  | i16
  | i32
  | i64
deriving DecidableEq, Repr

/-- Bit width of a signed integer kind. -/
def IntW.bits : IntW → Nat
  | .iInt => 64
  | .i8 => 8
  | .i16 => 16
  | .i32 => 32
  | .i64 => 64

/-- Unsigned integer kinds (`reflect.Uint`, `Uint8`, ... `Uintptr`). -/
inductive UintW where
  | uInt
  | u8
  | u16
  | u32
  | u64
  | uPtr
deriving DecidableEq, Repr

/-- Bit width of an unsigned integer kind. -/
def UintW.bits : UintW → Nat
  | .uInt => 64
  | .u8 => 8
  | .u16 => 16
  | .u32 => 32
  | .u64 => 64
  | .uPtr => 64

/-- Static Go types of decode targets, as far as the decoder inspects them.
A struct field is a triple of its `unhtml` tag (`""` when the tag is absent),
whether the field is exported, and its type.  `tIface n` is an interface type
with `n` methods; `tUnsupported` stands for every kind the decoder's switch
does not handle (maps, channels, functions, booleans, ...). -/
inductive GoTy where
  | tInt (w : IntW)
  | tUint (w : UintW)
  | tString
  | tSlice (elem : GoTy)
  | tArray (n : Nat) (elem : GoTy)
  | tStruct (fields : List (String × Bool × GoTy))
  | tIface (numMethods : Nat)
  | tUnsupported

/-- Untyped Go values.  `vSlice store len` is a slice whose backing array is
`store` (so the capacity is `store.length`) and whose visible length is
`len`; arrays reuse `vSlice`.  `vBytes` is a `[]byte` stored in an empty
interface.  `vZero` is the zero value of interface/unsupported kinds. -/
inductive GoVal where
  | vInt (n : Int)
  | vUint (n : Nat)
  | vStr (s : String)
  | vBytes (bs : List Nat)
  | vSlice (store : List GoVal) (len : Nat)
  | vStruct (fields : List GoVal)
  | vZero

mutual

/-- The zero value of a Go type (`reflect.New(t).Elem()` / `MakeSlice` fill). -/
def zeroVal : GoTy → GoVal
  | .tInt _ => .vInt 0
  | .tUint _ => .vUint 0
  | .tString => .vStr ""
  | .tSlice _ => .vSlice [] 0
  | .tArray n e => .vSlice (List.replicate n (zeroVal e)) n
  | .tStruct fs => .vStruct (zeroFields fs)
  | .tIface _ => .vZero
  | .tUnsupported => .vZero

/-- Zero values of a struct's field list. -/
def zeroFields : List (String × Bool × GoTy) → List GoVal
  | [] => []
  | (_, _, ty) :: fs => zeroVal ty :: zeroFields fs

end

/-- Abstract document plus query engine (external collaborator): node handles
are `Nat` identifiers.  `compiles p` models `xmlpath.Compile(p)` succeeding;
`queryOf p n` is the ordered sequence of node handles produced by iterating
the compiled path `p` from node `n`.  The behaviour of path compilation and
evaluation is modelled from the spec: the query engine itself is not part of
the repository's sources, only its result contract is consumed. -/
structure Doc where
  textOf : Nat → String
  bytesOf : Nat → List Nat
  compiles : String → Bool
  queryOf : String → Nat → List Nat

/-- Errors the decoder can record (`decoder.go`): `typeError` is
`UnmarshalTypeError{Value, Type}`, `invalidTarget` is
`InvalidUnmarshalError`, `noNodes` is `NoNodesAvailable`, and
`numErrSyn`/`numErrRange` are the `strconv` parse errors (`ErrSyntax` /
`ErrRange`) returned by `ParseInt`/`ParseUint` and saved verbatim. -/
inductive Err where
  | noNodes (path : String)
  | typeError (value : String) (ty : GoTy)
  | invalidTarget (ty : Option GoTy)
  | numErrSyn (input : String)
  | numErrRange (input : String)

/-- A Go runtime panic aborting the decode: `typeOnZero` is
`reflect.Value.Type` called on the zero `Value` (reached by
`indirect(reflect.ValueOf(nil))`, decoder.go:347), `setOnUnaddressable` is
any `reflect` write to an unaddressable value, and `mustCompileFail` is
`xmlpath.MustCompile` panicking on an uncompilable path (decoder.go:316).
Modelled from the spec: `MustCompile` belongs to the external query engine;
the spec records that a field's path-compilation failure is fatal for the
traversal. -/
inductive Crash where
  | typeOnZero
  | setOnUnaddressable
  | mustCompileFail (path : String)
deriving DecidableEq, Repr

/-- Whitespace predicate used by `strings.TrimSpace` (`unicode.IsSpace`),
restricted to the Latin-1 range. -/
def goIsSpace (c : Char) : Bool :=
  c == ' ' || c == '\t' || c == '\n' || c == '\x0b' || c == '\x0c' ||
    c == '\r' || c == '\x85' || c == '\xa0'

/-- Model of `strings.TrimSpace`: drop leading and trailing whitespace. -/
def goTrimSpace (s : String) : String :=
  ⟨((s.data.dropWhile goIsSpace).reverse.dropWhile goIsSpace).reverse⟩

/-- Decimal digit-string reading shared by the models of `strconv.ParseUint`
and `strconv.ParseInt` (base 10): `none` when the list is empty or contains a
non-digit. -/
def parseDigits (cs : List Char) : Option Nat :=
  match cs with
  | [] => none
  | _ :: _ =>
    cs.foldl
      (fun acc c =>
        match acc with
        | none => none
        | some n => if c.isDigit then some (n * 10 + (c.toNat - 48)) else none)
      (some 0)

/-- Model of `strconv.ParseUint(s, 10, 64)`: a sign is not permitted; the
value must fit in 64 bits (`ErrRange` otherwise).  Only the error/success
distinction and the parsed value are needed by the decoder. -/
def parseUint64 (s : String) : Except Err Nat :=
  match parseDigits s.data with
  | none => .error (.numErrSyn s)
  | some n => if n < 2 ^ 64 then .ok n else .error (.numErrRange s)

/-- Model of `strconv.ParseInt(s, 10, 64)`: optional leading sign, then
digits; range error outside `[-2^63, 2^63)`. -/
def parseInt64 (s : String) : Except Err Int :=
  match s.data with
  | [] => .error (.numErrSyn s)
  | c :: rest =>
    let p : Bool × List Char :=
      if c = '-' then (true, rest)
      else if c = '+' then (false, rest)
      else (false, c :: rest)
    match parseDigits p.2 with
    | none => .error (.numErrSyn s)
    | some n =>
      if p.1 then
        if n ≤ 2 ^ 63 then .ok (-(n : Int)) else .error (.numErrRange s)
      else
        if n < 2 ^ 63 then .ok (n : Int) else .error (.numErrRange s)

/-- Model of `reflect.Value.OverflowInt` for a target of kind `w`. -/
def overflowInt (w : IntW) (n : Int) : Bool :=
  decide (n < -(2 ^ (w.bits - 1) : Int) ∨ (2 ^ (w.bits - 1) : Int) ≤ n)

/-- Model of `reflect.Value.OverflowUint` for a target of kind `w`. -/
def overflowUint (w : UintW) (n : Nat) : Bool :=
  decide (2 ^ w.bits ≤ n)

/-- Kind test `value.Type().Elem().Kind() == reflect.Uint8` (the `[]byte`
short path in `state.unmarshal`). -/
def elemKindIsUint8 : GoTy → Bool
  | .tUint .u8 => true
  | _ => false

/-- Kind test `value.Type().Elem().Kind() == reflect.Int32` (the `[]rune`
short path in `state.unmarshal`). -/
def elemKindIsInt32 : GoTy → Bool
  | .tInt .i32 => true
  | _ => false

/-- Kind test for `multinode`'s `switch value.Kind() { case Array, Slice: }`. -/
def isSeqKind : GoTy → Bool
  | .tSlice _ => true
  | .tArray _ _ => true
  | _ => false

/-- Model of `state.saveError` (decoder.go:158–162): keep the first non-nil
error, discard everything later. -/
def saveError (st : Option Err) (e : Option Err) : Option Err :=
  match st, e with
  | none, some e' => some e'
  | _, _ => st

/-- New capacity computed by `multinode`'s growth step (decoder.go:179–182):
one-and-a-half times the old capacity, at least 4. -/
def newcap (c : Nat) : Nat :=
  let nc := c + c / 2
  if nc < 4 then 4 else nc

/-- Backing array of a slice/array value. -/
def sliceStore : GoVal → List GoVal
  | .vSlice s _ => s
  | _ => []

/-- Visible length (`value.Len()`) of a slice value. -/
def sliceLen : GoVal → Nat
  | .vSlice _ l => l
  | _ => 0

mutual

/-- Model of `state.unmarshal` (decoder.go:198–277) for a target slot of type
`ty`, addressable/settable iff `canSet`.  At nested positions `indirect`
reduces to the identity in the absence of pointer layers and custom decode
hooks (it takes the address and immediately dereferences again), so it is not
re-applied here; the top-level entry point applies it via `Target`.  Every
`reflect` write (`Set`, `SetString`, `SetInt`, ...) panics when the slot is
not settable. -/
def unmarshal (doc : Doc) (ty : GoTy) (canSet : Bool) (root : Nat)
    (v : GoVal) (st : Option Err) : Except Crash (GoVal × Option Err) :=
  let s := doc.textOf root
  match ty with
  | .tStruct fields =>
    match v with
    | .vStruct vs =>
      match unmarshalFields doc fields canSet root vs st with
      | .error c => .error c
      | .ok (vs', st') => .ok (.vStruct vs', st')
    | _ => .ok (v, st)
  | .tArray _ _ => .ok (v, st)
  | .tSlice elemTy =>
    if elemKindIsUint8 elemTy then
      if canSet then
        let bs := doc.bytesOf root
        .ok (.vSlice (bs.map fun b => GoVal.vUint b) bs.length, st)
      else .error .setOnUnaddressable
    else if elemKindIsInt32 elemTy then
      if canSet then
        let rs := s.data.map fun c => GoVal.vInt c.toNat
        .ok (.vSlice rs rs.length, st)
      else .error .setOnUnaddressable
    else .ok (v, st)
  | .tIface m =>
    if m ≠ 0 then .ok (v, saveError st (some (.typeError s (.tIface m))))
    else if canSet then .ok (.vBytes (doc.bytesOf root), st)
    else .error .setOnUnaddressable
  | .tString =>
    if canSet then .ok (.vStr s, st) else .error .setOnUnaddressable
  | .tInt w =>
    let s' := goTrimSpace s
    match parseInt64 s' with
    | .error e => .ok (v, saveError st (some e))
    | .ok n =>
      if overflowInt w n then .ok (v, st)
      else if canSet then .ok (.vInt n, st) else .error .setOnUnaddressable
  | .tUint w =>
    let s' := goTrimSpace s
    match parseUint64 s' with
    | .error e => .ok (v, saveError st (some e))
    | .ok n =>
      if overflowUint w n then .ok (v, st)
      else if canSet then .ok (.vUint n, st) else .error .setOnUnaddressable
  | .tUnsupported => .ok (v, st)

/-- Model of the field loop of `state.unmarshalStruct` (decoder.go:291–341):
`vs` are the current field values, parallel to `fields`; `structCanSet` is
the addressability of the struct itself (a field is settable iff the struct
is and the field is exported).  An uncompilable tag panics via
`xmlpath.MustCompile` after the tag and settability checks. -/
def unmarshalFields (doc : Doc) (fields : List (String × Bool × GoTy))
    (structCanSet : Bool) (root : Nat) (vs : List GoVal) (st : Option Err) :
    Except Crash (List GoVal × Option Err) :=
  match fields, vs with
  | [], _ => .ok (vs, st)
  | _ :: _, [] => .ok ([], st)
  | (tag, exported, fty) :: fs, fv :: fvs =>
    if tag = "" then
      match unmarshalFields doc fs structCanSet root fvs st with
      | .error c => .error c
      | .ok (fvs', st') => .ok (fv :: fvs', st')
    else if structCanSet && exported then
      if doc.compiles tag then
        match doc.queryOf tag root with
        | n1 :: n2 :: ns =>
          match multinode doc fty true (n1 :: n2 :: ns) fv st with
          | .error c => .error c
          | .ok (fv', st') =>
            match unmarshalFields doc fs structCanSet root fvs st' with
            | .error c => .error c
            | .ok (fvs', st'') => .ok (fv' :: fvs', st'')
        | [] =>
          match unmarshalFields doc fs structCanSet root fvs st with
          | .error c => .error c
          | .ok (fvs', st') => .ok (fv :: fvs', st')
        | [n1] =>
          match unmarshal doc fty true n1 fv st with
          | .error c => .error c
          | .ok (fv', st') =>
            match unmarshalFields doc fs structCanSet root fvs st' with
            | .error c => .error c
            | .ok (fvs', st'') => .ok (fv' :: fvs', st'')
      else .error (.mustCompileFail tag)
    else
      match unmarshalFields doc fs structCanSet root fvs st with
      | .error c => .error c
      | .ok (fvs', st') => .ok (fv :: fvs', st')

/-- Model of `state.multinode` (decoder.go:164–196): a non-sequence target
records an `UnmarshalTypeError` and nothing is written; otherwise the node
list is folded into the sequence by `multinodeLoop`. -/
def multinode (doc : Doc) (ty : GoTy) (canSet : Bool) (nodes : List Nat)
    (v : GoVal) (st : Option Err) : Except Crash (GoVal × Option Err) :=
  match ty with
  | .tSlice elemTy =>
    match multinodeLoop doc elemTy true canSet nodes 0 (sliceStore v) (sliceLen v) st with
    | .error c => .error c
    | .ok (store', len', st') => .ok (.vSlice store' len', st')
  | .tArray n elemTy =>
    match multinodeLoop doc elemTy false canSet nodes 0 (sliceStore v) n st with
    | .error c => .error c
    | .ok (store', _, st') => .ok (.vSlice store' n, st')
  | _ => .ok (v, saveError st (some (.typeError "Multinode result" ty)))

/-- Loop of `state.multinode` (decoder.go:176–195) over the remaining
`nodes`, the next node having index `i`.  For a slice: grow the backing
array geometrically when the index reaches the capacity (`MakeSlice` copies
the `len` visible elements and zero-fills the rest), then extend the length,
then decode into element `i`.  Slice elements are always addressable through
the slice header; array elements inherit the array's addressability. -/
def multinodeLoop (doc : Doc) (elemTy : GoTy) (isSlice canSet : Bool)
    (nodes : List Nat) (i : Nat) (store : List GoVal) (len : Nat)
    (st : Option Err) : Except Crash (List GoVal × Nat × Option Err) :=
  match nodes with
  | [] => .ok (store, len, st)
  | node :: rest =>
    if isSlice && decide (store.length ≤ i) && !canSet then
      .error .setOnUnaddressable
    else
      let store1 :=
        if isSlice && decide (store.length ≤ i) then
          store.take len ++ List.replicate (newcap store.length - len) (zeroVal elemTy)
        else store
      if isSlice && decide (len ≤ i) && !canSet then
        .error .setOnUnaddressable
      else
        let len1 := if isSlice && decide (len ≤ i) then i + 1 else len
        if i < len1 then
          match unmarshal doc elemTy (isSlice || canSet) node
              (store1.getD i (zeroVal elemTy)) st with
          | .error c => .error c
          | .ok (v', st') =>
            multinodeLoop doc elemTy isSlice canSet rest (i + 1)
              (store1.set i v') len1 st'
        else
          multinodeLoop doc elemTy isSlice canSet rest (i + 1) store1 len1 st

end

/-- The argument passed to `Decoder.Unmarshal` as `interface{}`, together with
what `indirect` (decoder.go:346–383) does with it before `state.unmarshal`
dispatches on the kind:

* `tgtNil`: the untyped nil interface.  `reflect.ValueOf(nil)` is the zero
  `Value`; `indirect` evaluates `v.Type()` on it (decoder.go:347), which
  panics.
* `tgtNilPtr`: a typed nil pointer.  `indirect` reaches `v.Set` on the
  non-settable `reflect.ValueOf` result (decoder.go:369), which panics.
* `tgtPlain ty v`: a non-pointer value; `indirect` returns it unchanged and
  it is not addressable, so no field or scalar write into it can succeed.
* `tgtPtr ty v`: a non-nil pointer to a value of type `ty`; `indirect`
  dereferences it to an addressable, settable slot. -/
inductive Target where
  | tgtNil
  | tgtNilPtr (ty : GoTy)
  | tgtPlain (ty : GoTy) (v : GoVal)
  | tgtPtr (ty : GoTy) (v : GoVal)

/-- Model of the `Decoder` struct: the parsed document and its root node.
The decoder holds nothing else; in particular no decode-session state. -/
structure Decoder where
  doc : Doc
  root : Nat

/-- Model of `Decoder.Unmarshal` (decoder.go:83–89): create a fresh `state`
(`firstError = nil`), run `state.unmarshal` on the root node against the
target, and return `state.firstError`.  The result pairs the final target
value with the returned error; a `Crash` is a Go panic escaping the call. -/
def Decoder.Unmarshal (d : Decoder) (t : Target) :
    Except Crash (Target × Option Err) :=
  match t with
  | .tgtNil => .error .typeOnZero
  | .tgtNilPtr _ => .error .setOnUnaddressable
  | .tgtPlain ty v =>
    match unmarshal d.doc ty false d.root v none with
    | .error c => .error c
    | .ok (v', e) => .ok (.tgtPlain ty v', e)
  | .tgtPtr ty v =>
    match unmarshal d.doc ty true d.root v none with
    | .error c => .error c
    | .ok (v', e) => .ok (.tgtPtr ty v', e)


/-!
## Example documents

Concrete `Doc` instances used to evaluate the decoder at specific inputs.
-/

/-- Document whose every node renders as the text `999999999999` (a value
that parses as a 64-bit integer but overflows every narrower width). -/
def docOverflow : Doc :=
  ⟨fun _ => "999999999999", fun _ => [], fun _ => true, fun _ _ => []⟩

/-- Document whose nodes render as `5`; the path `P` matches exactly one
node (node 1) from the root node 0. -/
def docPlain : Doc :=
  ⟨fun _ => "5", fun _ => [], fun _ => true,
   fun p n => if p = "P" ∧ n = 0 then [1] else []⟩

/-- Document where the path `P` matches two nodes from the root. -/
def docTwo : Doc :=
  ⟨fun _ => "x", fun _ => [], fun _ => true,
   fun p n => if p = "P" ∧ n = 0 then [1, 2] else []⟩

/-- Document whose node 0 renders as `7` and every other node as `8`. -/
def docSeq : Doc :=
  ⟨fun n => if n = 0 then "7" else "8", fun _ => [], fun _ => true, fun _ _ => []⟩

/-- Document whose every node renders as `" 123 "` (whitespace around the
digits). -/
def docNum : Doc :=
  ⟨fun _ => " 123 ", fun _ => [], fun _ => true, fun _ _ => []⟩

/-- Document on which no path expression compiles. -/
def docBadPath : Doc :=
  ⟨fun _ => "x", fun _ => [], fun _ => false, fun _ _ => []⟩


/-!
## Frame and error-threading lemmas

`saveError` algebra, list `getD` helpers, the first-error-wins masking
property of every decode function (running from a prior `firstError` equals
running fresh and merging the prior error in front), and the loop invariant
of `multinodeLoop` for growable-sequence targets.
-/

theorem saveError_none_left (e : Option Err) : saveError none e = e := by
  cases e <;> rfl

theorem saveError_some_left (e : Err) (x : Option Err) : saveError (some e) x = some e := by
  cases x <;> rfl

theorem saveError_none_right (st : Option Err) : saveError st none = st := by
  cases st <;> rfl

theorem saveError_assoc (a b c : Option Err) :
    saveError (saveError a b) c = saveError a (saveError b c) := by
  cases a <;> cases b <;> cases c <;> rfl

mutual

theorem unmarshal_mask (doc : Doc) (ty : GoTy) (canSet : Bool) (root : Nat) (v : GoVal)
    (st : Option Err) :
    unmarshal doc ty canSet root v st =
      (unmarshal doc ty canSet root v none).map fun p => (p.1, saveError st p.2) := by
  cases ty with
  | tStruct fields =>
    cases v with
    | vStruct vs =>
      simp only [unmarshal]
      rw [unmarshalFields_mask doc fields canSet root vs st]
      cases unmarshalFields doc fields canSet root vs none with
      | error c => rfl
      | ok q => rfl
    | vInt n => simp only [unmarshal, Except.map, saveError_none_right]
    | vUint n => simp only [unmarshal, Except.map, saveError_none_right]
    | vStr s => simp only [unmarshal, Except.map, saveError_none_right]
    | vBytes bs => simp only [unmarshal, Except.map, saveError_none_right]
    | vSlice s l => simp only [unmarshal, Except.map, saveError_none_right]
    | vZero => simp only [unmarshal, Except.map, saveError_none_right]
  | tArray n elemTy => simp only [unmarshal, Except.map, saveError_none_right]
  | tSlice elemTy =>
    simp only [unmarshal]
    split
    · split <;> simp [Except.map, saveError_none_right]
    · split
      · split <;> simp [Except.map, saveError_none_right]
      · simp [Except.map, saveError_none_right]
  | tIface m =>
    simp only [unmarshal]
    split
    · simp [Except.map, saveError_assoc, saveError_none_left]
    · split <;> simp [Except.map, saveError_none_right]
  | tString =>
    simp only [unmarshal]
    split <;> simp [Except.map, saveError_none_right]
  | tInt w =>
    simp only [unmarshal]
    split
    · simp [Except.map, saveError_none_left]
    · split <;> rename_i ho <;> cases canSet <;>
        simp [ho, Except.map, saveError_none_right]
  | tUint w =>
    simp only [unmarshal]
    split
    · simp [Except.map, saveError_none_left]
    · split <;> rename_i ho <;> cases canSet <;>
        simp [ho, Except.map, saveError_none_right]
  | tUnsupported => simp only [unmarshal, Except.map, saveError_none_right]
termination_by (sizeOf ty, 0)

theorem unmarshalFields_mask (doc : Doc) (fields : List (String × Bool × GoTy))
    (structCanSet : Bool) (root : Nat) (vs : List GoVal) (st : Option Err) :
    unmarshalFields doc fields structCanSet root vs st =
      (unmarshalFields doc fields structCanSet root vs none).map
        fun p => (p.1, saveError st p.2) := by
  cases fields with
  | nil => simp only [unmarshalFields, Except.map, saveError_none_right]
  | cons f fs =>
    obtain ⟨tag, exported, fty⟩ := f
    cases vs with
    | nil => simp only [unmarshalFields, Except.map, saveError_none_right]
    | cons fv fvs =>
      simp only [unmarshalFields]
      split
      · -- tag = ""
        rw [unmarshalFields_mask doc fs structCanSet root fvs st]
        cases unmarshalFields doc fs structCanSet root fvs none with
        | error c => rfl
        | ok q => rfl
      · split
        · -- settable
          split
          · -- compiles
            split
            · -- ≥ 2 nodes
              rename_i n1 n2 ns _
              rw [multinode_mask doc fty true (n1 :: n2 :: ns) fv st]
              cases hm : multinode doc fty true (n1 :: n2 :: ns) fv none with
              | error c => rfl
              | ok q =>
                obtain ⟨fv', e1⟩ := q
                simp only [Except.map]
                rw [unmarshalFields_mask doc fs structCanSet root fvs (saveError st e1),
                  unmarshalFields_mask doc fs structCanSet root fvs e1]
                cases unmarshalFields doc fs structCanSet root fvs none with
                | error c => rfl
                | ok q2 => simp [Except.map, saveError_assoc]
            · -- 0 nodes
              rw [unmarshalFields_mask doc fs structCanSet root fvs st]
              cases unmarshalFields doc fs structCanSet root fvs none with
              | error c => rfl
              | ok q => rfl
            · -- 1 node
              rename_i n1 heq1
              rw [unmarshal_mask doc fty true n1 fv st]
              cases hm : unmarshal doc fty true n1 fv none with
              | error c => rfl
              | ok q =>
                obtain ⟨fv', e1⟩ := q
                simp only [Except.map]
                rw [unmarshalFields_mask doc fs structCanSet root fvs (saveError st e1),
                  unmarshalFields_mask doc fs structCanSet root fvs e1]
                cases unmarshalFields doc fs structCanSet root fvs none with
                | error c => rfl
                | ok q2 => simp [Except.map, saveError_assoc]
          · rfl
        · -- not settable
          rw [unmarshalFields_mask doc fs structCanSet root fvs st]
          cases unmarshalFields doc fs structCanSet root fvs none with
          | error c => rfl
          | ok q => rfl
termination_by (sizeOf fields, 0)

theorem multinode_mask (doc : Doc) (ty : GoTy) (canSet : Bool) (nodes : List Nat)
    (v : GoVal) (st : Option Err) :
    multinode doc ty canSet nodes v st =
      (multinode doc ty canSet nodes v none).map fun p => (p.1, saveError st p.2) := by
  cases ty with
  | tSlice elemTy =>
    simp only [multinode]
    rw [multinodeLoop_mask doc elemTy true canSet nodes 0 (sliceStore v) (sliceLen v) st]
    cases multinodeLoop doc elemTy true canSet nodes 0 (sliceStore v) (sliceLen v) none with
    | error c => rfl
    | ok q => rfl
  | tArray n elemTy =>
    simp only [multinode]
    rw [multinodeLoop_mask doc elemTy false canSet nodes 0 (sliceStore v) n st]
    cases multinodeLoop doc elemTy false canSet nodes 0 (sliceStore v) n none with
    | error c => rfl
    | ok q => rfl
  | tInt w => simp [multinode, Except.map, saveError_assoc, saveError_none_left]
  | tUint w => simp [multinode, Except.map, saveError_assoc, saveError_none_left]
  | tString => simp [multinode, Except.map, saveError_assoc, saveError_none_left]
  | tStruct fs => simp [multinode, Except.map, saveError_assoc, saveError_none_left]
  | tIface m => simp [multinode, Except.map, saveError_assoc, saveError_none_left]
  | tUnsupported => simp [multinode, Except.map, saveError_assoc, saveError_none_left]
termination_by (sizeOf ty, 1)

theorem multinodeLoop_mask (doc : Doc) (elemTy : GoTy) (isSlice canSet : Bool)
    (nodes : List Nat) (i : Nat) (store : List GoVal) (len : Nat) (st : Option Err) :
    multinodeLoop doc elemTy isSlice canSet nodes i store len st =
      (multinodeLoop doc elemTy isSlice canSet nodes i store len none).map
        fun p => (p.1, p.2.1, saveError st p.2.2) := by
  cases nodes with
  | nil => simp only [multinodeLoop, Except.map, saveError_none_right]
  | cons node rest =>
    simp only [multinodeLoop]
    by_cases hA : (isSlice && decide (store.length ≤ i) && !canSet) = true
    · simp only [if_pos hA]
      rfl
    · simp only [if_neg hA]
      by_cases hB : (isSlice && decide (len ≤ i) && !canSet) = true
      · simp only [if_pos hB]
        rfl
      · simp only [if_neg hB]
        by_cases hC : i < (if (isSlice && decide (len ≤ i)) = true then i + 1 else len)
        · simp only [if_pos hC]
          rw [unmarshal_mask doc elemTy (isSlice || canSet) node _ st]
          cases hu : unmarshal doc elemTy (isSlice || canSet) node
              ((if (isSlice && decide (store.length ≤ i)) = true then
                  store.take len ++ List.replicate (newcap store.length - len) (zeroVal elemTy)
                else store).getD i (zeroVal elemTy)) none with
          | error c => rfl
          | ok q =>
            obtain ⟨v', e1⟩ := q
            simp only [Except.map]
            rw [multinodeLoop_mask doc elemTy isSlice canSet rest (i + 1) _ _ (saveError st e1),
              multinodeLoop_mask doc elemTy isSlice canSet rest (i + 1) _ _ e1]
            cases multinodeLoop doc elemTy isSlice canSet rest (i + 1)
                ((if (isSlice && decide (store.length ≤ i)) = true then
                    store.take len ++ List.replicate (newcap store.length - len) (zeroVal elemTy)
                  else store).set i v')
                (if (isSlice && decide (len ≤ i)) = true then i + 1 else len) none with
            | error c => rfl
            | ok q2 => simp [Except.map, saveError_assoc]
        · simp only [if_neg hC]
          rw [multinodeLoop_mask doc elemTy isSlice canSet rest (i + 1) _ _ st]
termination_by (sizeOf elemTy, 2 + nodes.length)

end

theorem getD_replicate {α : Type} (m k : Nat) (z : α) : (List.replicate m z).getD k z = z := by
  induction m generalizing k with
  | zero => rfl
  | succ m ih =>
    cases k with
    | zero => rfl
    | succ k => exact ih k

theorem getD_append_replicate {α : Type} (l : List α) (m : Nat) (z : α) (k : Nat) :
    (l ++ List.replicate m z).getD k z = l.getD k z := by
  by_cases h : k < l.length
  · exact List.getD_append l _ z k h
  · rw [List.getD_append_right l _ z k (by omega), getD_replicate,
      List.getD_eq_default l z (by omega)]

theorem getD_set_ne {α : Type} (l : List α) (i j : Nat) (v d : α) (h : i ≠ j) :
    (l.set i v).getD j d = l.getD j d := by
  induction l generalizing i j with
  | nil => simp [List.set]
  | cons a as ih =>
    cases i with
    | zero => cases j with
      | zero => omega
      | succ j => rfl
    | succ i =>
      cases j with
      | zero => rfl
      | succ j => simpa [List.set] using ih i j (by omega)

theorem getD_set_eq {α : Type} (l : List α) (i : Nat) (v d : α) (h : i < l.length) :
    (l.set i v).getD i d = v := by
  induction l generalizing i with
  | nil => simp at h
  | cons a as ih =>
    cases i with
    | zero => rfl
    | succ i => simpa [List.set] using ih i (by simpa using h)

theorem multinodeLoop_spec (doc : Doc) (elemTy : GoTy) :
    ∀ (nodes : List Nat) (i : Nat) (store : List GoVal) (len : Nat) (st : Option Err)
      (store' : List GoVal) (len' : Nat) (st' : Option Err),
    i ≤ len → len ≤ store.length →
    multinodeLoop doc elemTy true true nodes i store len st = .ok (store', len', st') →
    len' = max len (i + nodes.length) ∧
    len' ≤ store'.length ∧
    (∀ j, j < i → store'.getD j (zeroVal elemTy) = store.getD j (zeroVal elemTy)) ∧
    (∀ j, i + nodes.length ≤ j → store'.getD j (zeroVal elemTy) = store.getD j (zeroVal elemTy)) ∧
    (∀ j, j < nodes.length → ∃ e,
      unmarshal doc elemTy true (nodes.getD j 0) (store.getD (i + j) (zeroVal elemTy)) none =
        .ok (store'.getD (i + j) (zeroVal elemTy), e)) := by
  intro nodes
  induction nodes with
  | nil =>
    intro i store len st store' len' st' hil hls hrun
    simp only [multinodeLoop] at hrun
    obtain ⟨h1, h2, h3⟩ : store = store' ∧ len = len' ∧ st = st' := by
      cases hrun; exact ⟨rfl, rfl, rfl⟩
    subst h1; subst h2; subst h3
    refine ⟨by simp only [List.length_nil]; omega, hls, fun j _ => rfl, fun j _ => rfl,
      fun j hj => by simp at hj⟩
  | cons node rest ih =>
    intro i store len st store' len' st' hil hls hrun
    simp only [multinodeLoop, Bool.not_true, Bool.and_false, Bool.true_and,
      Bool.true_or, Bool.or_true] at hrun
    rw [if_neg (show ¬(false = true) by simp), if_neg (show ¬(false = true) by simp)] at hrun
    set store1 := (if decide (store.length ≤ i) = true then
        store.take len ++ List.replicate (newcap store.length - len) (zeroVal elemTy)
      else store) with hs1
    set len1 := (if decide (len ≤ i) = true then i + 1 else len) with hl1
    have hcap : store.length < newcap store.length := by
      simp only [newcap]; split <;> omega
    have hmax : len1 = max len (i + 1) := by
      rw [hl1]; split <;> rename_i h <;> simp at h <;> omega
    have hlt : i < len1 := by
      rw [hl1]; split <;> rename_i h <;> simp at h <;> omega
    have hs1getD : ∀ k, store1.getD k (zeroVal elemTy) = store.getD k (zeroVal elemTy) := by
      intro k; rw [hs1]; split <;> rename_i h
      · simp only [decide_eq_true_eq] at h
        have hlen : len = store.length := by omega
        rw [hlen, List.take_length, getD_append_replicate]
      · rfl
    have hs1len : len1 ≤ store1.length ∧ i < store1.length := by
      rw [hs1, hl1]
      by_cases hg : store.length ≤ i
      · have hig : i = store.length := by omega
        have hlg : len = store.length := by omega
        have hgl : len ≤ i := by omega
        simp only [hg, hgl, decide_true_eq_true, decide_True, if_pos,
          List.length_append, List.length_take, List.length_replicate]
        omega
      · have hig : i < store.length := by omega
        simp only [decide_eq_true_eq, if_neg hg]
        constructor
        · split <;> omega
        · omega
    rw [if_pos hlt] at hrun
    cases hu : unmarshal doc elemTy true node (store1.getD i (zeroVal elemTy)) st with
    | error c =>
      rw [hu] at hrun
      exact Except.noConfusion hrun
    | ok q =>
      obtain ⟨v1, st1⟩ := q
      rw [hu] at hrun
      obtain ⟨ha, hb, hpre, hfr, helem⟩ :=
        ih (i + 1) (store1.set i v1) len1 st1 store' len' st' hlt
          (by rw [List.length_set]; exact hs1len.1) hrun
      refine ⟨?_, hb, ?_, ?_, ?_⟩
      · rw [ha, hmax]; simp only [List.length_cons]; omega
      · intro j hj
        rw [hpre j (by omega), getD_set_ne store1 i j v1 _ (by omega), hs1getD j]
      · intro j hj
        simp only [List.length_cons] at hj
        rw [hfr j (by omega), getD_set_ne store1 i j v1 _ (by omega), hs1getD j]
      · intro j hj
        simp only [List.length_cons] at hj
        cases j with
        | zero =>
          rw [unmarshal_mask] at hu
          cases hn : unmarshal doc elemTy true node (store1.getD i (zeroVal elemTy)) none with
          | error c => rw [hn] at hu; simp [Except.map] at hu
          | ok q0 =>
            obtain ⟨v0, e0⟩ := q0
            rw [hn] at hu
            simp only [Except.map, Except.ok.injEq, Prod.mk.injEq] at hu
            refine ⟨e0, ?_⟩
            have harg : (node :: rest).getD 0 0 = node := rfl
            have hidx : store.getD (i + 0) (zeroVal elemTy) = store1.getD i (zeroVal elemTy) := by
              rw [Nat.add_zero, hs1getD i]
            rw [harg, hidx, hn]
            have hv : store'.getD (i + 0) (zeroVal elemTy) = v1 := by
              rw [Nat.add_zero, hpre i (by omega), getD_set_eq store1 i v1 _ hs1len.2]
            rw [hv, hu.1]
        | succ j' =>
          have hidx : i + 1 + j' = i + (j' + 1) := by omega
          obtain ⟨e, he⟩ := helem j' (by omega)
          refine ⟨e, ?_⟩
          rw [hidx] at he
          rw [getD_set_ne store1 i (i + (j' + 1)) v1 _ (by omega), hs1getD] at he
          exact he

/-!
## Claim theorems
-/

/-- C1: evaluation at the failing input.  Decoding the text
`"999999999999"` (which `strconv.ParseUint(s, 10, 64)` parses successfully)
into an 8-bit unsigned pointer target leaves the slot at its zero default
but records NO error: the decode returns `firstError = nil`.  The claim
states that an overflow error is recorded; in `state.unmarshal`
(decoder.go:261) the overflow branch executes `d.saveError(err)` with
`err == nil`, which `saveError` discards, so the overflow is silent. -/
theorem c1_uint8_overflow_records_no_error :
    Decoder.Unmarshal ⟨docOverflow, 0⟩ (.tgtPtr (.tUint .u8) (.vUint 0)) =
      .ok (.tgtPtr (.tUint .u8) (.vUint 0), none) := by
  simp only [Decoder.Unmarshal, unmarshal]
  rfl

/-- C2: evaluation at the failing inputs.  A top-level decode whose target is
not a valid writable slot does NOT return an "invalid decode target" error:
an untyped nil target panics in `indirect` (`reflect.Value.Type` on the zero
`Value`, decoder.go:347); a typed nil pointer panics at the `v.Set` on a
non-settable value (decoder.go:369); a non-pointer scalar panics at
`SetInt` on an unaddressable value after parsing; and a non-pointer struct
is silently skipped field-by-field, returning no error at all.  The
`InvalidUnmarshalError` type (decoder.go:35–49) is unreachable from this
entry point. -/
theorem c2_invalid_target_panics_or_silent :
    Decoder.Unmarshal ⟨docPlain, 0⟩ .tgtNil = .error .typeOnZero ∧
    Decoder.Unmarshal ⟨docPlain, 0⟩ (.tgtNilPtr (.tInt .iInt)) = .error .setOnUnaddressable ∧
    Decoder.Unmarshal ⟨docPlain, 0⟩ (.tgtPlain (.tInt .iInt) (.vInt 0)) =
      .error .setOnUnaddressable ∧
    Decoder.Unmarshal ⟨docPlain, 0⟩
        (.tgtPlain (.tStruct [("P", true, .tString)]) (.vStruct [.vStr ""])) =
      .ok (.tgtPlain (.tStruct [("P", true, .tString)]) (.vStruct [.vStr ""]), none) := by
  refine ⟨rfl, rfl, ?_, ?_⟩
  · simp only [Decoder.Unmarshal, unmarshal]
    rfl
  · simp only [Decoder.Unmarshal, unmarshal, unmarshalFields]
    rfl

/-- C3: for an annotated (non-empty tag), settable struct field whose tag
compiles, field binding dispatches on the number of matched nodes: zero
matches leave the field untouched with the session unchanged; exactly one
match goes through the single-value `unmarshal` path; two or more matches
always go to `multinode` regardless of the declared type; and when that type
is not array- or slice-kinded, `multinode` records the
`UnmarshalTypeError("Multinode result")` and leaves the field unmodified. -/
theorem c3_cardinality_dispatch (doc : Doc) (root : Nat) (tag : String) (ty : GoTy)
    (fv : GoVal) (st : Option Err) (htag : tag ≠ "") (hc : doc.compiles tag = true) :
    (doc.queryOf tag root = [] →
      unmarshalFields doc [(tag, true, ty)] true root [fv] st = .ok ([fv], st)) ∧
    (∀ n, doc.queryOf tag root = [n] →
      unmarshalFields doc [(tag, true, ty)] true root [fv] st =
        (unmarshal doc ty true n fv st).map fun p => ([p.1], p.2)) ∧
    (∀ n1 n2 ns, doc.queryOf tag root = n1 :: n2 :: ns →
      unmarshalFields doc [(tag, true, ty)] true root [fv] st =
        (multinode doc ty true (n1 :: n2 :: ns) fv st).map fun p => ([p.1], p.2)) ∧
    (∀ n1 n2 ns, doc.queryOf tag root = n1 :: n2 :: ns → isSeqKind ty = false →
      unmarshalFields doc [(tag, true, ty)] true root [fv] st =
        .ok ([fv], saveError st (some (.typeError "Multinode result" ty)))) := by
  refine ⟨?_, ?_, ?_, ?_⟩
  · intro hq
    simp only [unmarshalFields, if_neg htag, hc, hq, Bool.and_self, if_true]
  · intro n hq
    simp only [unmarshalFields, if_neg htag, hc, hq, Bool.and_self, if_true]
    cases unmarshal doc ty true n fv st with
    | error c => rfl
    | ok q => rfl
  · intro n1 n2 ns hq
    simp only [unmarshalFields, if_neg htag, hc, hq, Bool.and_self, if_true]
    cases multinode doc ty true (n1 :: n2 :: ns) fv st with
    | error c => rfl
    | ok q => rfl
  · intro n1 n2 ns hq hseq
    simp only [unmarshalFields, if_neg htag, hc, hq, Bool.and_self, if_true]
    have hm : multinode doc ty true (n1 :: n2 :: ns) fv st =
        .ok (fv, saveError st (some (.typeError "Multinode result" ty))) := by
      cases ty with
      | tSlice e => simp [isSeqKind] at hseq
      | tArray n e => simp [isSeqKind] at hseq
      | tInt w => simp only [multinode]
      | tUint w => simp only [multinode]
      | tString => simp only [multinode]
      | tStruct fs => simp only [multinode]
      | tIface m => simp only [multinode]
      | tUnsupported => simp only [multinode]
    rw [hm]

/-- C3 witness: a two-match query against a string-typed (non-sequence)
field records the type-mismatch error and leaves the field unchanged. -/
theorem c3_cardinality_dispatch_witness :
    ("P" ≠ "") ∧ docTwo.compiles "P" = true ∧
    unmarshalFields docTwo [("P", true, GoTy.tString)] true 0 [.vStr "a"] none =
      .ok ([.vStr "a"], saveError none (some (.typeError "Multinode result" .tString))) := by
  refine ⟨by decide, rfl, ?_⟩
  exact (c3_cardinality_dispatch docTwo 0 "P" .tString (.vStr "a") none (by decide) rfl).2.2.2
    1 2 [] (by simp [docTwo]) rfl

/-- C4: the decode session retains only the first error.  Running any decode
step from a session whose `firstError` is already `e` produces exactly the
same target value (and the same panic behaviour) as running it from a fresh
session, and the reported error is still `e`: later errors are discarded and
decoding continues unimpeded.  The caller receives exactly one `Option Err`
per call by construction. -/
theorem c4_first_error_retained (doc : Doc) (ty : GoTy) (canSet : Bool) (root : Nat)
    (v : GoVal) (e : Err) :
    unmarshal doc ty canSet root v (some e) =
      (unmarshal doc ty canSet root v none).map fun p => (p.1, some e) := by
  rw [unmarshal_mask doc ty canSet root v (some e)]
  cases unmarshal doc ty canSet root v none with
  | error c => rfl
  | ok q => simp [Except.map, saveError_some_left]

/-- C5 counterexample: a slice target of pre-call length 3 given 2 matched
nodes ends with length 3, not 2 — the claim that the resulting sequence has
length exactly `N` for every slice target is false. -/
theorem c5_length_counterexample :
    multinode docSeq (.tSlice (.tInt .iInt)) true [0, 1]
        (.vSlice [.vInt 1, .vInt 2, .vInt 3] 3) none =
      .ok (.vSlice [.vInt 7, .vInt 8, .vInt 3] 3, none) ∧
    sliceLen (.vSlice [.vInt 7, .vInt 8, .vInt 3] 3) ≠ [0, 1].length := by
  constructor
  · simp [multinode, multinodeLoop, unmarshal, docSeq, sliceStore, sliceLen, zeroVal,
      newcap, goTrimSpace, goIsSpace, parseInt64, parseDigits, overflowInt, IntW.bits,
      saveError]
  · decide

/-- C5 amended: for every slice target whose pre-call length is at most `N`
(in particular a fresh empty slice), collecting `N` matched nodes yields
visible length exactly `N`, and element `i` is the result of decoding the
`i`-th matched node (in document order) into that element's pre-call
content. -/
theorem c5_amended_collect (doc : Doc) (elemTy : GoTy) (nodes : List Nat)
    (store store' : List GoVal) (len len' : Nat) (st st' : Option Err)
    (hLn : len ≤ nodes.length) (hls : len ≤ store.length)
    (hrun : multinode doc (.tSlice elemTy) true nodes (.vSlice store len) st =
      .ok (.vSlice store' len', st')) :
    len' = nodes.length ∧
    ∀ j, j < nodes.length → ∃ e,
      unmarshal doc elemTy true (nodes.getD j 0) (store.getD j (zeroVal elemTy)) none =
        .ok (store'.getD j (zeroVal elemTy), e) := by
  simp only [multinode, sliceStore, sliceLen] at hrun
  cases hl : multinodeLoop doc elemTy true true nodes 0 store len st with
  | error c => rw [hl] at hrun; exact Except.noConfusion hrun
  | ok q =>
    obtain ⟨s2, l2, e2⟩ := q
    rw [hl] at hrun
    simp only [Except.ok.injEq, GoVal.vSlice.injEq, Prod.mk.injEq] at hrun
    obtain ⟨⟨hs2, hl2⟩, he2⟩ := hrun
    obtain ⟨ha, _, _, _, helem⟩ :=
      multinodeLoop_spec doc elemTy nodes 0 store len st s2 l2 e2 (Nat.zero_le len) hls hl
    subst hs2; subst hl2
    constructor
    · simp only [Nat.zero_add] at ha; omega
    · intro j hj
      obtain ⟨e, he⟩ := helem j hj
      simp only [Nat.zero_add] at he
      exact ⟨e, he⟩

/-- C5 amended witness: collecting nodes `[0, 1]` of `docSeq` into a fresh
empty `[]int`-like slice yields length 2 with elements decoded in document
order (`7`, then `8`). -/
theorem c5_amended_collect_witness :
    (0 ≤ [0, 1].length ∧ 0 ≤ ([] : List GoVal).length) ∧
    (2 = [0, 1].length ∧
      ∀ j, j < [0, 1].length → ∃ e,
        unmarshal docSeq (.tInt .iInt) true ([0, 1].getD j 0)
            (([] : List GoVal).getD j (zeroVal (.tInt .iInt))) none =
          .ok (([GoVal.vInt 7, .vInt 8, .vInt 0, .vInt 0].getD j (zeroVal (.tInt .iInt))), e)) := by
  refine ⟨⟨by decide, by decide⟩, ?_⟩
  exact c5_amended_collect docSeq (.tInt .iInt) [0, 1] [] [.vInt 7, .vInt 8, .vInt 0, .vInt 0]
    0 2 none none (by decide) (by decide)
    (by simp [multinode, multinodeLoop, unmarshal, docSeq, sliceStore, sliceLen, zeroVal,
      newcap, goTrimSpace, goIsSpace, parseInt64, parseDigits, overflowInt, IntW.bits,
      saveError])

/-- C6: decoding a node rendering as `"123"`, or as `" 123 "` with
surrounding whitespace, into a settable integer slot of any signed or
unsigned width yields the value 123 with no error recorded, because the text
is trimmed before `strconv` parsing. -/
theorem c6_int_decode_trims_whitespace (doc : Doc) (root : Nat) (v : GoVal)
    (st : Option Err) (h : doc.textOf root = "123" ∨ doc.textOf root = " 123 ") :
    (∀ w : IntW, unmarshal doc (.tInt w) true root v st = .ok (.vInt 123, st)) ∧
    (∀ w : UintW, unmarshal doc (.tUint w) true root v st = .ok (.vUint 123, st)) := by
  constructor
  · intro w
    simp only [unmarshal]
    rcases h with h | h <;> rw [h] <;> cases w <;> rfl
  · intro w
    simp only [unmarshal]
    rcases h with h | h <;> rw [h] <;> cases w <;> rfl

/-- C6 witness: decoding `" 123 "` into an `int8` slot yields 123. -/
theorem c6_int_decode_trims_whitespace_witness :
    (docNum.textOf 0 = "123" ∨ docNum.textOf 0 = " 123 ") ∧
    unmarshal docNum (.tInt .i8) true 0 (.vInt 0) none = .ok (.vInt 123, none) := by
  refine ⟨Or.inr rfl, ?_⟩
  exact (c6_int_decode_trims_whitespace docNum 0 (.vInt 0) none (Or.inr rfl)).1 .i8

/-- C7: an annotated struct field of slice type whose element kind is
neither `uint8` nor `int32`, matched by exactly one node, is left completely
unmodified with no error recorded: the single-value `unmarshal` path's slice
case only handles the `[]byte` and `[]rune` short paths and otherwise does
nothing, so the matched node is silently dropped. -/
theorem c7_single_match_slice_dropped (doc : Doc) (root n : Nat) (tag : String)
    (elemTy : GoTy) (fv : GoVal) (st : Option Err)
    (htag : tag ≠ "") (hc : doc.compiles tag = true)
    (hq : doc.queryOf tag root = [n])
    (hu8 : elemKindIsUint8 elemTy = false) (hi32 : elemKindIsInt32 elemTy = false) :
    unmarshalFields doc [(tag, true, .tSlice elemTy)] true root [fv] st = .ok ([fv], st) := by
  simp only [unmarshalFields, if_neg htag, hc, hq, Bool.and_self, if_true]
  simp only [unmarshal, hu8, hi32, Bool.false_eq_true, if_false]

/-- C7 witness: a `[]int`-typed field with one matched node keeps its
initial empty-slice value and no error. -/
theorem c7_single_match_slice_dropped_witness :
    ("P" ≠ "" ∧ docPlain.compiles "P" = true ∧ docPlain.queryOf "P" 0 = [1] ∧
      elemKindIsUint8 (.tInt .iInt) = false ∧ elemKindIsInt32 (.tInt .iInt) = false) ∧
    unmarshalFields docPlain [("P", true, .tSlice (.tInt .iInt))] true 0 [.vSlice [] 0] none =
      .ok ([.vSlice [] 0], none) := by
  refine ⟨⟨by decide, rfl, by simp [docPlain], rfl, rfl⟩, ?_⟩
  exact c7_single_match_slice_dropped docPlain 0 1 "P" (.tInt .iInt) (.vSlice [] 0) none
    (by decide) rfl (by simp [docPlain]) rfl rfl

/-- C8: a struct field whose annotation string is not a compilable path
expression makes struct-field binding panic via `xmlpath.MustCompile`
(decoder.go:316) instead of recording an error on the session: the whole
decode call aborts and no error value is returned to the caller. -/
theorem c8_bad_tag_crashes_decode :
    Decoder.Unmarshal ⟨docBadPath, 0⟩
        (.tgtPtr (.tStruct [("///bad[", true, .tString)]) (.vStruct [.vStr ""])) =
      .error (.mustCompileFail "///bad[") := by
  simp only [Decoder.Unmarshal, unmarshal, unmarshalFields]
  rfl

/-- C9: the multi-node collector never shrinks a slice whose pre-call length
`L` exceeds the number `N` of matched nodes: the resulting visible length is
still `L`, and every element at an index at or beyond `N` keeps its pre-call
value — only indexes `0` through `N-1` are written. -/
theorem c9_longer_slice_not_shrunk (doc : Doc) (elemTy : GoTy) (nodes : List Nat)
    (store store' : List GoVal) (len len' : Nat) (st st' : Option Err)
    (hNl : nodes.length < len) (hls : len ≤ store.length)
    (hrun : multinode doc (.tSlice elemTy) true nodes (.vSlice store len) st =
      .ok (.vSlice store' len', st')) :
    len' = len ∧
    ∀ j, nodes.length ≤ j → store'.getD j (zeroVal elemTy) = store.getD j (zeroVal elemTy) := by
  simp only [multinode, sliceStore, sliceLen] at hrun
  cases hl : multinodeLoop doc elemTy true true nodes 0 store len st with
  | error c => rw [hl] at hrun; exact Except.noConfusion hrun
  | ok q =>
    obtain ⟨s2, l2, e2⟩ := q
    rw [hl] at hrun
    simp only [Except.ok.injEq, GoVal.vSlice.injEq, Prod.mk.injEq] at hrun
    obtain ⟨⟨hs2, hl2⟩, he2⟩ := hrun
    obtain ⟨ha, _, _, hfr, _⟩ :=
      multinodeLoop_spec doc elemTy nodes 0 store len st s2 l2 e2 (Nat.zero_le len) hls hl
    subst hs2; subst hl2
    constructor
    · omega
    · intro j hj
      exact hfr j (by omega)

/-- C9 witness: one matched node against a slice of pre-call length 2 leaves
the length at 2 and index 1 untouched. -/
theorem c9_longer_slice_not_shrunk_witness :
    ([0].length < 2 ∧ 2 ≤ [GoVal.vInt 1, .vInt 2].length) ∧
    (2 = 2 ∧
      ∀ j, [0].length ≤ j →
        [GoVal.vInt 7, .vInt 2].getD j (zeroVal (.tInt .iInt)) =
          [GoVal.vInt 1, .vInt 2].getD j (zeroVal (.tInt .iInt))) := by
  refine ⟨⟨by decide, by decide⟩, ?_⟩
  exact c9_longer_slice_not_shrunk docSeq (.tInt .iInt) [0] [.vInt 1, .vInt 2]
    [.vInt 7, .vInt 2] 2 2 none none (by decide) (by decide)
    (by simp [multinode, multinodeLoop, unmarshal, docSeq, sliceStore, sliceLen, zeroVal,
      newcap, goTrimSpace, goIsSpace, parseInt64, parseDigits, overflowInt, IntW.bits,
      saveError])

/-- C10: running the same decode call twice against the same parsed document
with identical fresh targets produces identical results — the decoder holds
only the immutable document root, and each call builds a fresh session
(`st := &state{}`), so the outcome is a function of the decoder and the
target alone. -/
theorem c10_rerun_deterministic (d : Decoder) (t : Target)
    (r1 r2 : Except Crash (Target × Option Err))
    (h1 : Decoder.Unmarshal d t = r1) (h2 : Decoder.Unmarshal d t = r2) : r1 = r2 :=
  h1.symm.trans h2

/-- C10 witness: two runs on a concrete decoder and target agree. -/
theorem c10_rerun_deterministic_witness :
    Decoder.Unmarshal ⟨docPlain, 0⟩ .tgtNil = .error .typeOnZero ∧
    (Except.error .typeOnZero : Except Crash (Target × Option Err)) = .error .typeOnZero :=
  ⟨rfl, c10_rerun_deterministic ⟨docPlain, 0⟩ .tgtNil _ _ rfl rfl⟩

end Unhtml
